import Mathlib

/-!
Verification of the dockyard daemon health / retry state machine and the
registry error classifier, as a shallow embedding of
`pkg/docker/health.go`, `pkg/docker/platforms.go` and `pkg/docker/registry.go`.

Effectful Go code (sleeping, constructing a daemon client, pinging, printing
instructional text, launching helper processes) is embedded as explicit
event traces: the environment (which probes succeed, what the user picks at
an interactive prompt) is a parameter, and each embedded function returns
the ordered list of external actions it performed together with its result.
-/

set_option maxRecDepth 10000

namespace Dockyard

/-! ### Constants from pkg/docker/health.go -/

/-- `PingTimeout = 5 * time.Second` -/
def PingTimeoutSeconds : Nat := 5

/-- `RuntimeStartTimeout = 60 * time.Second` -/
def RuntimeStartTimeoutSeconds : Nat := 60

/-- `RetryInterval = 5 * time.Second` -/
def RetryIntervalSeconds : Nat := 5

/-- `MaxRetries = 12` -/
def MaxRetries : Nat := 12

/-! ### The wait-and-retry loop (`waitAndRetryDocker`, health.go lines 375-401)

One loop iteration sleeps `RetryInterval`, then builds a fresh health
checker (`NewDockerHealthChecker`); on a construction error it `continue`s,
otherwise it pings the daemon (`CheckDockerDaemon`) and closes the client.
A successful ping returns nil immediately.  The per-iteration outcome of the
environment is: -/

inductive ProbeOutcome where
  /-- `NewDockerHealthChecker` returned an error (iteration `continue`s). -/
  | clientError
  /-- client constructed, `CheckDockerDaemon` returned an error. -/
  | pingFail
  /-- client constructed, `CheckDockerDaemon` returned nil. -/
  | pingOk
deriving DecidableEq, Repr

/-- Observable events of one `waitAndRetryDocker` run. -/
inductive RetryEvent where
  /-- `time.Sleep(RetryInterval)` -/
  | sleep (seconds : Nat)
  /-- `NewDockerHealthChecker` failed, no ping issued this iteration. -/
  | newClientFail
  /-- a daemon ping (`CheckDockerDaemon`) was issued, with its outcome. -/
  | ping (ok : Bool)
deriving DecidableEq, Repr

/-- The probe part of one iteration, after the sleep. -/
def attemptEvent : ProbeOutcome → RetryEvent
  | .clientError => .newClientFail
  | .pingFail => .ping false
  | .pingOk => .ping true

/-- Events of a single loop iteration: sleep first, then the probe attempt. -/
def runIteration (o : ProbeOutcome) : List RetryEvent :=
  [.sleep RetryIntervalSeconds, attemptEvent o]

/-- The `for i := 0; i < MaxRetries; i++` loop of `waitAndRetryDocker`:
`i` is the current iteration index, the second argument the remaining
iteration budget.  Returns the event trace and whether a ping succeeded
(in the source: `return nil` out of the loop). -/
def waitAndRetryAux (probe : Nat → ProbeOutcome) : Nat → Nat → List RetryEvent × Bool
  | _, 0 => ([], false)
  | i, r + 1 =>
    if probe i = .pingOk then (runIteration (probe i), true)
    else
      let rest := waitAndRetryAux probe (i + 1) r
      (runIteration (probe i) ++ rest.1, rest.2)

/-- Event trace of the retry loop of `waitAndRetryDocker`. -/
def waitAndRetryTrace (probe : Nat → ProbeOutcome) : List RetryEvent :=
  (waitAndRetryAux probe 0 MaxRetries).1

/-- Whether the retry loop of `waitAndRetryDocker` returned success. -/
def waitAndRetrySucceeds (probe : Nat → ProbeOutcome) : Bool :=
  (waitAndRetryAux probe 0 MaxRetries).2

/-- The first `k` loop iterations written out as one flat trace. -/
def retryBlocks (probe : Nat → ProbeOutcome) (i : Nat) : Nat → List RetryEvent
  | 0 => []
  | k + 1 => runIteration (probe i) ++ retryBlocks probe (i + 1) k

def isSleepEvent : RetryEvent → Bool
  | .sleep _ => true
  | _ => false

/-- A probe attempt: the per-iteration event that is not the sleep
(client construction failure or an actual ping). -/
def isAttemptEvent : RetryEvent → Bool
  | .sleep _ => false
  | _ => true

def isPingEvent : RetryEvent → Bool
  | .ping _ => true
  | _ => false

/-! ### Exhaustion path: `showStartupOptions` (health.go lines 403-425) -/

/-- The user's answer to the `StartupOptions` select prompt
(`showStartupOptions`): the two configured options, any other value
(`default` branch), or a prompt error from `survey.AskOne`. -/
inductive StartupChoice where
  | manualCommands
  | autoStartSetup
  | other
  | promptFailure
deriving DecidableEq, Repr

/-- Instructional text blocks the recovery flow can print. -/
inductive InstructionText where
  /-- `showManualStartup`: `getStartupInstructions(GOOS, "manual")` -/
  | manualStartupText
  /-- `showAutoStartSetup`: `getStartupInstructions(GOOS, "auto")` -/
  | autoStartSetupText
deriving DecidableEq, Repr

/-- Error values returned by the recovery flow (the `config.ErrorMessages`
strings of the source, as an enumeration). -/
inductive RecoveryError where
  | manualStartup
  | autoStartSetup
  | startRuntimeManually
  | promptFailed
deriving DecidableEq, Repr

/-- `showStartupOptions`: prompts, then either shows the manual startup
commands, shows the auto-start setup, or errors; every branch returns a
non-nil error.  Result: text printed and the error returned. -/
def showStartupOptions : StartupChoice → List InstructionText × RecoveryError
  | .manualCommands => ([.manualStartupText], .manualStartup)
  | .autoStartSetup => ([.autoStartSetupText], .autoStartSetup)
  | .other => ([], .startRuntimeManually)
  | .promptFailure => ([], .promptFailed)

/-- Full `waitAndRetryDocker`: the bounded retry loop; on success return
nil, on exhaustion print the failure banner and fall through to
`showStartupOptions` (whose outcome depends on the user's `choice`).
Result: retry-loop event trace, instructional text printed after
exhaustion, and the returned error (if any). -/
def waitAndRetryDocker (probe : Nat → ProbeOutcome) (choice : StartupChoice) :
    List RetryEvent × List InstructionText × Except RecoveryError Unit :=
  let r := waitAndRetryAux probe 0 MaxRetries
  if r.2 then (r.1, [], .ok ())
  else (r.1, (showStartupOptions choice).1, .error (showStartupOptions choice).2)

/-! ### Shape lemmas for the retry loop -/

theorem retryBlocks_succ (probe : Nat → ProbeOutcome) (i k : Nat) :
    retryBlocks probe i (k + 1) =
      runIteration (probe i) ++ retryBlocks probe (i + 1) k := rfl

theorem retryBlocks_append_one (probe : Nat → ProbeOutcome) :
    ∀ k i, retryBlocks probe i (k + 1) =
      retryBlocks probe i k ++ runIteration (probe (i + k)) := by
  intro k
  induction k with
  | zero => intro i; simp [retryBlocks]
  | succ k ih =>
    intro i
    rw [retryBlocks_succ, ih (i + 1), retryBlocks_succ]
    simp [Nat.add_assoc, Nat.add_comm 1 k]

/-- If no probe in the window succeeds, the loop runs all `r` iterations
and reports failure. -/
theorem waitAndRetryAux_all_fail (probe : Nat → ProbeOutcome) :
    ∀ r i, (∀ t, t < r → probe (i + t) ≠ .pingOk) →
      waitAndRetryAux probe i r = (retryBlocks probe i r, false) := by
  intro r
  induction r with
  | zero => intro i _; rfl
  | succ r ih =>
    intro i h
    have h0 : probe i ≠ .pingOk := by
      have := h 0 (Nat.succ_pos r); simpa using this
    have hrest : ∀ t, t < r → probe (i + 1 + t) ≠ .pingOk := by
      intro t ht
      have := h (t + 1) (Nat.succ_lt_succ ht)
      have harith : i + (t + 1) = i + 1 + t := by omega
      rwa [harith] at this
    simp only [waitAndRetryAux, if_neg h0, ih (i + 1) hrest, retryBlocks_succ]

/-- If the first success in the window is at offset `j`, the loop stops
right after iteration `j` and reports success. -/
theorem waitAndRetryAux_first_success (probe : Nat → ProbeOutcome) :
    ∀ j r i, j < r → probe (i + j) = .pingOk →
      (∀ t, t < j → probe (i + t) ≠ .pingOk) →
      waitAndRetryAux probe i r = (retryBlocks probe i (j + 1), true) := by
  intro j
  induction j with
  | zero =>
    intro r i hjr hok _
    obtain ⟨r', rfl⟩ : ∃ r', r = r' + 1 := ⟨r - 1, by omega⟩
    simp only [Nat.add_zero] at hok
    simp [waitAndRetryAux, hok, retryBlocks, runIteration]
  | succ j ih =>
    intro r i hjr hok hmin
    obtain ⟨r', rfl⟩ : ∃ r', r = r' + 1 := ⟨r - 1, by omega⟩
    have h0 : probe i ≠ .pingOk := by
      have := hmin 0 (Nat.succ_pos j); simpa using this
    have hok' : probe (i + 1 + j) = .pingOk := by
      have harith : i + (j + 1) = i + 1 + j := by omega
      rwa [harith] at hok
    have hmin' : ∀ t, t < j → probe (i + 1 + t) ≠ .pingOk := by
      intro t ht
      have := hmin (t + 1) (Nat.succ_lt_succ ht)
      have harith : i + (t + 1) = i + 1 + t := by omega
      rwa [harith] at this
    have hjr' : j < r' := by omega
    simp only [waitAndRetryAux, if_neg h0, ih r' (i + 1) hjr' hok' hmin',
      retryBlocks_succ]

theorem countP_runIteration_sleep (o : ProbeOutcome) :
    (runIteration o).countP isSleepEvent = 1 := by
  cases o <;> rfl

theorem countP_runIteration_attempt (o : ProbeOutcome) :
    (runIteration o).countP isAttemptEvent = 1 := by
  cases o <;> rfl

theorem countP_retryBlocks_sleep (probe : Nat → ProbeOutcome) :
    ∀ k i, (retryBlocks probe i k).countP isSleepEvent = k := by
  intro k
  induction k with
  | zero => intro i; rfl
  | succ k ih =>
    intro i
    rw [retryBlocks_succ, List.countP_append, countP_runIteration_sleep, ih]
    omega

theorem countP_retryBlocks_attempt (probe : Nat → ProbeOutcome) :
    ∀ k i, (retryBlocks probe i k).countP isAttemptEvent = k := by
  intro k
  induction k with
  | zero => intro i; rfl
  | succ k ih =>
    intro i
    rw [retryBlocks_succ, List.countP_append, countP_runIteration_attempt, ih]
    omega

theorem countP_retryBlocks_ping_le (probe : Nat → ProbeOutcome) :
    ∀ k i, (retryBlocks probe i k).countP isPingEvent ≤ k := by
  intro k
  induction k with
  | zero => intro i; exact Nat.le_refl 0
  | succ k ih =>
    intro i
    rw [retryBlocks_succ, List.countP_append]
    have h1 : (runIteration (probe i)).countP isPingEvent ≤ 1 := by
      cases h : probe i <;> simp [runIteration, attemptEvent, isPingEvent,
        List.countP_cons]
    have := ih (i + 1)
    omega

theorem countP_retryBlocks_ping_allFail (probe : Nat → ProbeOutcome) :
    ∀ k i, (∀ t, t < k → probe (i + t) = .pingFail) →
      (retryBlocks probe i k).countP isPingEvent = k := by
  intro k
  induction k with
  | zero => intro i _; rfl
  | succ k ih =>
    intro i h
    have h0 : probe i = .pingFail := by
      have := h 0 (Nat.succ_pos k); simpa using this
    have hrest : ∀ t, t < k → probe (i + 1 + t) = .pingFail := by
      intro t ht
      have := h (t + 1) (Nat.succ_lt_succ ht)
      have harith : i + (t + 1) = i + 1 + t := by omega
      rwa [harith] at this
    rw [retryBlocks_succ, List.countP_append, ih (i + 1) hrest, h0]
    have h1 : (runIteration ProbeOutcome.pingFail).countP isPingEvent = 1 := rfl
    rw [h1]
    omega

/-- In a window with no successful probe, no `ping true` event occurs. -/
theorem pingTrue_not_mem_retryBlocks (probe : Nat → ProbeOutcome) :
    ∀ k i, (∀ t, t < k → probe (i + t) ≠ .pingOk) →
      RetryEvent.ping true ∉ retryBlocks probe i k := by
  intro k
  induction k with
  | zero => intro i _; simp [retryBlocks]
  | succ k ih =>
    intro i h
    have h0 : probe i ≠ .pingOk := by
      have := h 0 (Nat.succ_pos k); simpa using this
    have hrest : ∀ t, t < k → probe (i + 1 + t) ≠ .pingOk := by
      intro t ht
      have := h (t + 1) (Nat.succ_lt_succ ht)
      have harith : i + (t + 1) = i + 1 + t := by omega
      rwa [harith] at this
    rw [retryBlocks_succ]
    intro hmem
    rcases List.mem_append.mp hmem with hmem | hmem
    · cases hcase : probe i <;> rw [hcase] at hmem <;>
        simp [runIteration, attemptEvent] at hmem
      · exact h0 hcase
    · exact ih (i + 1) hrest hmem

/-- An element that occurs only as the very last entry admits no proper
decomposition with a tail after it. -/
theorem eq_last_of_not_mem_before {α : Type} [DecidableEq α] (x : α) :
    ∀ a0 a b : List α, x ∉ a0 → a0 ++ [x] = a ++ x :: b → b = [] := by
  intro a0
  induction a0 with
  | nil =>
    intro a b _ heq
    cases a with
    | nil => simpa using heq.symm
    | cons c a' =>
      have := congrArg List.length heq
      simp at this
  | cons c a0' ih =>
    intro a b hnm heq
    have hxc : x ≠ c := fun h => hnm (by simp [h])
    have hxm : x ∉ a0' := fun h => hnm (by simp [h])
    cases a with
    | nil =>
      simp only [List.nil_append, List.cons_append, List.cons.injEq] at heq
      exact absurd heq.1.symm hxc
    | cons c' a' =>
      simp only [List.cons_append, List.cons.injEq] at heq
      exact ih a' b hxm heq.2

/-- C1: every run of `waitAndRetryDocker`'s loop performs at most
`MaxRetries = 12` probe attempts, its trace is exactly `k ≤ MaxRetries`
iterations each of the form `[.sleep RetryIntervalSeconds, attempt]`
(so exactly one `RetryInterval` sleep between consecutive attempts), a
successful ping is always the final event of the trace (no probe or sleep
follows it), and the loop reports success exactly when the trace ends in a
successful ping. -/
theorem waitAndRetry_bounded_and_early_exit (probe : Nat → ProbeOutcome) :
    MaxRetries = 12 ∧ RetryIntervalSeconds = 5 ∧
    ∃ k, k ≤ MaxRetries ∧
      waitAndRetryTrace probe = retryBlocks probe 0 k ∧
      (waitAndRetryTrace probe).countP isAttemptEvent = k ∧
      (waitAndRetryTrace probe).countP isSleepEvent = k ∧
      (∀ a b, waitAndRetryTrace probe = a ++ RetryEvent.ping true :: b → b = []) ∧
      (waitAndRetrySucceeds probe = true ↔
        ∃ a, waitAndRetryTrace probe = a ++ [RetryEvent.ping true]) := by
  refine ⟨rfl, rfl, ?_⟩
  by_cases hfail : ∀ t, t < MaxRetries → probe t ≠ .pingOk
  · have hfail' : ∀ t, t < MaxRetries → probe (0 + t) ≠ .pingOk := by
      simpa using hfail
    have hA := waitAndRetryAux_all_fail probe MaxRetries 0 hfail'
    have htr : waitAndRetryTrace probe = retryBlocks probe 0 MaxRetries := by
      simp [waitAndRetryTrace, hA]
    have hsc : waitAndRetrySucceeds probe = false := by
      simp [waitAndRetrySucceeds, hA]
    have hnm : RetryEvent.ping true ∉ retryBlocks probe 0 MaxRetries :=
      pingTrue_not_mem_retryBlocks probe MaxRetries 0 hfail'
    refine ⟨MaxRetries, Nat.le_refl _, htr, ?_, ?_, ?_, ?_⟩
    · rw [htr, countP_retryBlocks_attempt]
    · rw [htr, countP_retryBlocks_sleep]
    · intro a b heq
      have hmem : RetryEvent.ping true ∈ retryBlocks probe 0 MaxRetries := by
        rw [← htr, heq]; simp
      exact absurd hmem hnm
    · rw [hsc]
      constructor
      · intro habs; exact absurd habs (by simp)
      · rintro ⟨a, ha⟩
        have hmem : RetryEvent.ping true ∈ retryBlocks probe 0 MaxRetries := by
          rw [← htr, ha]; simp
        exact absurd hmem hnm
  · push_neg at hfail
    obtain ⟨t0, ht0, hok0⟩ := hfail
    have hex : ∃ t, probe t = .pingOk := ⟨t0, hok0⟩
    set j := Nat.find hex with hjdef
    have hok : probe j = .pingOk := Nat.find_spec hex
    have hmin : ∀ s, s < j → probe s ≠ .pingOk := fun s hs => Nat.find_min hex hs
    have hj12 : j < MaxRetries := lt_of_le_of_lt (Nat.find_min' hex hok0) ht0
    have hok' : probe (0 + j) = .pingOk := by simpa using hok
    have hmin' : ∀ s, s < j → probe (0 + s) ≠ .pingOk := by simpa using hmin
    have hB := waitAndRetryAux_first_success probe j MaxRetries 0 hj12 hok' hmin'
    have htr : waitAndRetryTrace probe = retryBlocks probe 0 (j + 1) := by
      simp [waitAndRetryTrace, hB]
    have hsc : waitAndRetrySucceeds probe = true := by
      simp [waitAndRetrySucceeds, hB]
    have hsplit : retryBlocks probe 0 (j + 1) =
        (retryBlocks probe 0 j ++ [RetryEvent.sleep RetryIntervalSeconds]) ++
          [RetryEvent.ping true] := by
      rw [retryBlocks_append_one]
      simp only [Nat.zero_add, hok, runIteration, attemptEvent]
      simp
    have hnm : RetryEvent.ping true ∉
        retryBlocks probe 0 j ++ [RetryEvent.sleep RetryIntervalSeconds] := by
      intro hmem
      rcases List.mem_append.mp hmem with hmem | hmem
      · exact pingTrue_not_mem_retryBlocks probe j 0 hmin' hmem
      · simp at hmem
    refine ⟨j + 1, hj12, htr, ?_, ?_, ?_, ?_⟩
    · rw [htr, countP_retryBlocks_attempt]
    · rw [htr, countP_retryBlocks_sleep]
    · intro a b heq
      refine eq_last_of_not_mem_before (RetryEvent.ping true) _ a b hnm ?_
      rw [← hsplit, ← htr, heq]
    · rw [hsc]
      simp only [true_iff]
      exact ⟨retryBlocks probe 0 j ++ [RetryEvent.sleep RetryIntervalSeconds],
        by rw [htr, hsplit]⟩

/-- C2: when every daemon probe fails, `waitAndRetryDocker` performs exactly
`MaxRetries = 12` pings (and as many sleeps), then returns a terminal error
out of `showStartupOptions`, after printing the corresponding
manual-startup / auto-start instructional text for the user's choice;
it never returns success. -/
theorem waitAndRetry_exhausts (probe : Nat → ProbeOutcome) (choice : StartupChoice)
    (h : ∀ i, probe i = ProbeOutcome.pingFail) :
    (waitAndRetryDocker probe choice).1.countP isPingEvent = MaxRetries ∧
    (waitAndRetryDocker probe choice).1.countP isSleepEvent = MaxRetries ∧
    MaxRetries = 12 ∧
    (∃ e, (waitAndRetryDocker probe choice).2.2 = Except.error e) ∧
    (waitAndRetryDocker probe choice).2.2 ≠ Except.ok () ∧
    (choice = StartupChoice.manualCommands →
      (waitAndRetryDocker probe choice).2.1 = [InstructionText.manualStartupText]) ∧
    (choice = StartupChoice.autoStartSetup →
      (waitAndRetryDocker probe choice).2.1 = [InstructionText.autoStartSetupText]) := by
  have hfail : ∀ t, t < MaxRetries → probe (0 + t) ≠ .pingOk := by
    intro t _
    rw [h (0 + t)]
    intro hc
    exact ProbeOutcome.noConfusion hc
  have hA := waitAndRetryAux_all_fail probe MaxRetries 0 hfail
  have hout : waitAndRetryDocker probe choice =
      (retryBlocks probe 0 MaxRetries, (showStartupOptions choice).1,
        Except.error (showStartupOptions choice).2) := by
    simp [waitAndRetryDocker, hA]
  rw [hout]
  refine ⟨?_, ?_, rfl, ⟨(showStartupOptions choice).2, rfl⟩, by simp, ?_, ?_⟩
  · exact countP_retryBlocks_ping_allFail probe MaxRetries 0
      (fun t _ => h (0 + t))
  · exact countP_retryBlocks_sleep probe MaxRetries 0
  · intro hc; rw [hc]; rfl
  · intro hc; rw [hc]; rfl

/-- Witness for C2 at the always-failing probe with the
"show manual startup commands" choice. -/
theorem waitAndRetry_exhausts_witness :
    (waitAndRetryDocker (fun _ => ProbeOutcome.pingFail)
        StartupChoice.manualCommands).1.countP isPingEvent = MaxRetries ∧
    (waitAndRetryDocker (fun _ => ProbeOutcome.pingFail)
        StartupChoice.manualCommands).1.countP isSleepEvent = MaxRetries ∧
    MaxRetries = 12 ∧
    (∃ e, (waitAndRetryDocker (fun _ => ProbeOutcome.pingFail)
        StartupChoice.manualCommands).2.2 = Except.error e) ∧
    (waitAndRetryDocker (fun _ => ProbeOutcome.pingFail)
        StartupChoice.manualCommands).2.2 ≠ Except.ok () ∧
    (StartupChoice.manualCommands = StartupChoice.manualCommands →
      (waitAndRetryDocker (fun _ => ProbeOutcome.pingFail)
        StartupChoice.manualCommands).2.1 = [InstructionText.manualStartupText]) ∧
    (StartupChoice.manualCommands = StartupChoice.autoStartSetup →
      (waitAndRetryDocker (fun _ => ProbeOutcome.pingFail)
        StartupChoice.manualCommands).2.1 = [InstructionText.autoStartSetupText]) :=
  waitAndRetry_exhausts (fun _ => ProbeOutcome.pingFail)
    StartupChoice.manualCommands (fun _ => rfl)

/-- C9: the loop sleeps one full `RetryInterval` before every probe,
including the first: a run whose first successful probe is attempt `j`
(0-based) has slept exactly `j + 1` intervals, the very first trace event
is a sleep, and even an immediately-reachable daemon costs at least one
sleep before success is reported. -/
theorem waitAndRetry_sleeps_before_first_probe (probe : Nat → ProbeOutcome)
    (j : Nat) (hj : j < MaxRetries) (hok : probe j = ProbeOutcome.pingOk)
    (hmin : ∀ t, t < j → probe t ≠ ProbeOutcome.pingOk) :
    waitAndRetrySucceeds probe = true ∧
    (waitAndRetryTrace probe).countP isSleepEvent = j + 1 ∧
    (waitAndRetryTrace probe).head? =
      some (RetryEvent.sleep RetryIntervalSeconds) ∧
    1 ≤ (waitAndRetryTrace probe).countP isSleepEvent := by
  have hok' : probe (0 + j) = .pingOk := by simpa using hok
  have hmin' : ∀ s, s < j → probe (0 + s) ≠ .pingOk := by simpa using hmin
  have hB := waitAndRetryAux_first_success probe j MaxRetries 0 hj hok' hmin'
  have htr : waitAndRetryTrace probe = retryBlocks probe 0 (j + 1) := by
    simp [waitAndRetryTrace, hB]
  have hsc : waitAndRetrySucceeds probe = true := by
    simp [waitAndRetrySucceeds, hB]
  have hcnt : (waitAndRetryTrace probe).countP isSleepEvent = j + 1 := by
    rw [htr, countP_retryBlocks_sleep]
  refine ⟨hsc, hcnt, ?_, by omega⟩
  rw [htr, retryBlocks_succ]
  rfl

/-- Witness for C9: a daemon reachable from the very first probe still
incurs one sleep before the loop reports success. -/
theorem waitAndRetry_sleeps_before_first_probe_witness :
    waitAndRetrySucceeds (fun _ => ProbeOutcome.pingOk) = true ∧
    (waitAndRetryTrace (fun _ => ProbeOutcome.pingOk)).countP isSleepEvent = 0 + 1 ∧
    (waitAndRetryTrace (fun _ => ProbeOutcome.pingOk)).head? =
      some (RetryEvent.sleep RetryIntervalSeconds) ∧
    1 ≤ (waitAndRetryTrace (fun _ => ProbeOutcome.pingOk)).countP isSleepEvent :=
  waitAndRetry_sleeps_before_first_probe (fun _ => ProbeOutcome.pingOk) 0
    (by decide) rfl (fun t ht => absurd ht (Nat.not_lt_zero t))

/-- Witness for C1 at a concrete probe (daemon immediately reachable). -/
theorem waitAndRetry_bounded_and_early_exit_witness :
    MaxRetries = 12 ∧ RetryIntervalSeconds = 5 ∧
    ∃ k, k ≤ MaxRetries ∧
      waitAndRetryTrace (fun _ => ProbeOutcome.pingOk) =
        retryBlocks (fun _ => ProbeOutcome.pingOk) 0 k ∧
      (waitAndRetryTrace (fun _ => ProbeOutcome.pingOk)).countP isAttemptEvent = k ∧
      (waitAndRetryTrace (fun _ => ProbeOutcome.pingOk)).countP isSleepEvent = k ∧
      (∀ a b, waitAndRetryTrace (fun _ => ProbeOutcome.pingOk) =
        a ++ RetryEvent.ping true :: b → b = []) ∧
      (waitAndRetrySucceeds (fun _ => ProbeOutcome.pingOk) = true ↔
        ∃ a, waitAndRetryTrace (fun _ => ProbeOutcome.pingOk) =
          a ++ [RetryEvent.ping true]) :=
  waitAndRetry_bounded_and_early_exit (fun _ => ProbeOutcome.pingOk)

/-! ### Platform profiles (pkg/docker/platforms.go)

The profile contents live in the embedded `platforms.yaml`, which is not
part of the sources; the lookup logic is.  The loaded `config.Platforms`
map is therefore a parameter here (an association list, looked up with Go
map semantics: a missing key falls back, and a missing fallback yields the
zero value). -/

structure RuntimeInstructions where
  ManualStart : List String
  AutoStart : List String
  Commands : List String
deriving DecidableEq, Repr

structure StartupInstructions where
  Manual : List String
  Auto : List String
deriving DecidableEq, Repr

structure PlatformConfiguration where
  InstallOptions : List String
  Troubleshooting : List String
  Runtimes : List (String × RuntimeInstructions)
  Startup : StartupInstructions
deriving DecidableEq, Repr

/-- The zero value of `PlatformConfiguration` (what a Go map access with a
missing key yields). -/
def zeroPlatformConfiguration : PlatformConfiguration :=
  ⟨[], [], [], ⟨[], []⟩⟩

/-- `config.Platforms[p]` with its `exists` flag. -/
def lookupPlatform (platforms : List (String × PlatformConfiguration))
    (p : String) : Option PlatformConfiguration :=
  (platforms.find? (fun kv => kv.1 == p)).map Prod.snd

/-- `getPlatformConfiguration` (platforms.go lines 88-93): return the
profile for `platform` when present, else the `"linux"` profile. -/
def getPlatformConfiguration (platforms : List (String × PlatformConfiguration))
    (platform : String) : PlatformConfiguration :=
  match lookupPlatform platforms platform with
  | some c => c
  | none => (lookupPlatform platforms "linux").getD zeroPlatformConfiguration

/-- Modelled from the spec: `platforms.yaml` (the embedded configuration
document holding the platform table) is not under `src/`; per the spec the
table has one profile per OS, keyed by exactly `"darwin"`, `"windows"` and
`"linux"`.  The three profile values are parameters, since their contents
do not affect the lookup claims. -/
def specPlatforms (darwinP windowsP linuxP : PlatformConfiguration) :
    List (String × PlatformConfiguration) :=
  [("darwin", darwinP), ("windows", windowsP), ("linux", linuxP)]

/-- C6: with the spec's platform table, an OS identifier outside
{darwin, windows, linux} resolves to the linux profile, and the lookup is
total — every input resolves to one of the three profiles. -/
theorem getPlatformConfiguration_fallback
    (darwinP windowsP linuxP : PlatformConfiguration) (os : String)
    (h1 : os ≠ "darwin") (h2 : os ≠ "windows") (h3 : os ≠ "linux") :
    getPlatformConfiguration (specPlatforms darwinP windowsP linuxP) os = linuxP ∧
    ∀ os2, getPlatformConfiguration (specPlatforms darwinP windowsP linuxP) os2 = darwinP ∨
      getPlatformConfiguration (specPlatforms darwinP windowsP linuxP) os2 = windowsP ∨
      getPlatformConfiguration (specPlatforms darwinP windowsP linuxP) os2 = linuxP := by
  constructor
  · have e1 : ("darwin" == os) = false := beq_eq_false_iff_ne.mpr (Ne.symm h1)
    have e2 : ("windows" == os) = false := beq_eq_false_iff_ne.mpr (Ne.symm h2)
    have e3 : ("linux" == os) = false := beq_eq_false_iff_ne.mpr (Ne.symm h3)
    simp [getPlatformConfiguration, lookupPlatform, specPlatforms, List.find?,
      e1, e2, e3]
  · intro os2
    by_cases hd : os2 = "darwin"
    · subst hd
      left
      simp [getPlatformConfiguration, lookupPlatform, specPlatforms, List.find?]
    have e1 : ("darwin" == os2) = false := beq_eq_false_iff_ne.mpr (Ne.symm hd)
    by_cases hw : os2 = "windows"
    · subst hw
      right; left
      simp [getPlatformConfiguration, lookupPlatform, specPlatforms, List.find?,
        e1]
    have e2 : ("windows" == os2) = false := beq_eq_false_iff_ne.mpr (Ne.symm hw)
    by_cases hl : os2 = "linux"
    · subst hl
      right; right
      simp [getPlatformConfiguration, lookupPlatform, specPlatforms, List.find?,
        e1, e2]
    · have e3 : ("linux" == os2) = false := beq_eq_false_iff_ne.mpr (Ne.symm hl)
      right; right
      simp [getPlatformConfiguration, lookupPlatform, specPlatforms, List.find?,
        e1, e2, e3]

/-- Witness for C6 at the unknown OS identifier `"freebsd"` and three
concrete, pairwise distinct profiles. -/
theorem getPlatformConfiguration_fallback_witness :
    getPlatformConfiguration
      (specPlatforms ⟨["d"], [], [], ⟨[], []⟩⟩ ⟨["w"], [], [], ⟨[], []⟩⟩
        ⟨["l"], [], [], ⟨[], []⟩⟩) "freebsd" = ⟨["l"], [], [], ⟨[], []⟩⟩ ∧
    ∀ os2, getPlatformConfiguration
        (specPlatforms ⟨["d"], [], [], ⟨[], []⟩⟩ ⟨["w"], [], [], ⟨[], []⟩⟩
          ⟨["l"], [], [], ⟨[], []⟩⟩) os2 = ⟨["d"], [], [], ⟨[], []⟩⟩ ∨
      getPlatformConfiguration
        (specPlatforms ⟨["d"], [], [], ⟨[], []⟩⟩ ⟨["w"], [], [], ⟨[], []⟩⟩
          ⟨["l"], [], [], ⟨[], []⟩⟩) os2 = ⟨["w"], [], [], ⟨[], []⟩⟩ ∨
      getPlatformConfiguration
        (specPlatforms ⟨["d"], [], [], ⟨[], []⟩⟩ ⟨["w"], [], [], ⟨[], []⟩⟩
          ⟨["l"], [], [], ⟨[], []⟩⟩) os2 = ⟨["l"], [], [], ⟨[], []⟩⟩ :=
  getPlatformConfiguration_fallback _ _ _ "freebsd"
    (by decide) (by decide) (by decide)

/-! ### The brief startup status check (`checkDockerStatusBrief`,
health.go lines 116-153) -/

/-- Environment of one `checkDockerStatusBrief` run: whether the `docker`
executable is on the search path (`exec.LookPath`), whether
`NewDockerHealthChecker` succeeds, and whether the daemon ping succeeds. -/
structure CheckEnv where
  dockerOnPath : Bool
  newClientOk : Bool
  pingOk : Bool
deriving DecidableEq, Repr

/-- External actions `checkDockerStatusBrief` can perform, in order. -/
inductive CheckAction where
  /-- `exec.LookPath("docker")` inside `IsDockerAvailable` -/
  | lookPathDocker
  /-- `NewDockerHealthChecker` — constructing the daemon client -/
  | newClient
  /-- `CheckDockerDaemon` — the daemon ping -/
  | pingDaemon
deriving DecidableEq, Repr

/-- Result of `checkDockerStatusBrief`.  `daemonUnreachable` marks the
hand-off to `handleDockerDaemonError` (the interactive recovery flow,
modelled separately); `ok` the success path (which then only offers
detailed info). -/
inductive CheckResult where
  /-- `handleDockerNotInstalled`: engine executable absent; carries the
  install instructions printed for the current platform. -/
  | notInstalled (installOptions : List String)
  /-- `NewDockerHealthChecker` failed. -/
  | clientCreateFailed
  /-- ping failed; recovery is delegated to `handleDockerDaemonError`. -/
  | daemonUnreachable
  | ok
deriving DecidableEq, Repr

/-- `checkDockerStatusBrief`: availability lookup first; only if the
executable is present is a daemon client constructed and a ping issued. -/
def checkDockerStatusBrief (platforms : List (String × PlatformConfiguration))
    (goos : String) (env : CheckEnv) : List CheckAction × CheckResult :=
  if env.dockerOnPath = false then
    ([.lookPathDocker],
      .notInstalled (getPlatformConfiguration platforms goos).InstallOptions)
  else if env.newClientOk = false then
    ([.lookPathDocker, .newClient], .clientCreateFailed)
  else if env.pingOk = false then
    ([.lookPathDocker, .newClient, .pingDaemon], .daemonUnreachable)
  else
    ([.lookPathDocker, .newClient, .pingDaemon], .ok)

/-- C5: when the engine executable is absent from the search path,
`checkDockerStatusBrief` returns the not-installed error carrying the
current platform's install instructions, and the daemon-client constructor
and the ping are never invoked. -/
theorem checkStatus_notInstalled_no_client
    (platforms : List (String × PlatformConfiguration)) (goos : String)
    (env : CheckEnv) (h : env.dockerOnPath = false) :
    checkDockerStatusBrief platforms goos env =
      ([CheckAction.lookPathDocker],
        CheckResult.notInstalled
          (getPlatformConfiguration platforms goos).InstallOptions) ∧
    CheckAction.newClient ∉ (checkDockerStatusBrief platforms goos env).1 ∧
    CheckAction.pingDaemon ∉ (checkDockerStatusBrief platforms goos env).1 := by
  refine ⟨by simp [checkDockerStatusBrief, h], ?_, ?_⟩ <;>
    simp [checkDockerStatusBrief, h]

/-- Witness for C5: a concrete environment with `docker` absent from the
path (the other environment flags would allow a connection, but none is
attempted). -/
theorem checkStatus_notInstalled_no_client_witness :
    checkDockerStatusBrief
        (specPlatforms ⟨["d"], [], [], ⟨[], []⟩⟩ ⟨["w"], [], [], ⟨[], []⟩⟩
          ⟨["l"], [], [], ⟨[], []⟩⟩) "darwin" ⟨false, true, true⟩ =
      ([CheckAction.lookPathDocker],
        CheckResult.notInstalled
          (getPlatformConfiguration
            (specPlatforms ⟨["d"], [], [], ⟨[], []⟩⟩ ⟨["w"], [], [], ⟨[], []⟩⟩
              ⟨["l"], [], [], ⟨[], []⟩⟩) "darwin").InstallOptions) ∧
    CheckAction.newClient ∉ (checkDockerStatusBrief
        (specPlatforms ⟨["d"], [], [], ⟨[], []⟩⟩ ⟨["w"], [], [], ⟨[], []⟩⟩
          ⟨["l"], [], [], ⟨[], []⟩⟩) "darwin" ⟨false, true, true⟩).1 ∧
    CheckAction.pingDaemon ∉ (checkDockerStatusBrief
        (specPlatforms ⟨["d"], [], [], ⟨[], []⟩⟩ ⟨["w"], [], [], ⟨[], []⟩⟩
          ⟨["l"], [], [], ⟨[], []⟩⟩) "darwin" ⟨false, true, true⟩).1 :=
  checkStatus_notInstalled_no_client _ "darwin" ⟨false, true, true⟩ rfl

/-! ### Automatic runtime start on macOS
(`attemptContainerRuntimeStart`, `attemptOrbStackStart`,
`attemptColimaStart`, health.go lines 293-373; darwin branch) -/

/-- Environment of the darwin automatic-start flow: which helper
executables `exec.LookPath` finds, and whether each launch command
(`open -a OrbStack`, `colima start`, `open -a Docker`) succeeds. -/
structure DarwinStartEnv where
  orbctlOnPath : Bool
  colimaOnPath : Bool
  orbLaunchOk : Bool
  colimaLaunchOk : Bool
  desktopLaunchOk : Bool
deriving DecidableEq, Repr

/-- External actions of the darwin automatic-start flow, in order. -/
inductive StartEvent where
  /-- `exec.LookPath(CommandOrbctl)` -/
  | lookPathOrbctl
  /-- `exec.LookPath(CommandColima)` -/
  | lookPathColima
  /-- `open -a OrbStack` (`attemptOrbStackStart`) -/
  | launchOrbStack
  /-- `colima start` (`attemptColimaStart`) -/
  | launchColima
  /-- `open -a Docker` (`StartDockerDesktop`) -/
  | launchDockerDesktop
  /-- `showOrbStackInstructions` printed OrbStack manual/auto-start text -/
  | showOrbStackManual
  /-- `showColimaInstructions` printed Colima manual/auto-start text -/
  | showColimaManual
  /-- fell through to `showStartupOptions` -/
  | showStartupOptionsStep
  /-- entered `waitAndRetryDocker` -/
  | waitAndRetryStep
deriving DecidableEq, Repr

/-- Errors the darwin automatic-start flow can return. -/
inductive StartError where
  /-- `config.ErrorMessages.StartOrbStack` out of `showOrbStackInstructions` -/
  | startOrbStack
  /-- `config.ErrorMessages.StartColima` out of `showColimaInstructions` -/
  | startColima
  /-- an error propagated out of `waitAndRetryDocker` / `showStartupOptions` -/
  | recovery (e : RecoveryError)
deriving DecidableEq, Repr

/-- Map the result of `waitAndRetryDocker` into the start flow's result. -/
def liftRetryResult : Except RecoveryError Unit → Except StartError Unit
  | .ok () => .ok ()
  | .error e => .error (.recovery e)

/-- `attemptOrbStackStart` (health.go lines 293-303): launch OrbStack; on
failure show the OrbStack manual instructions and return an error, on
success proceed to `waitAndRetryDocker`. -/
def attemptOrbStackStart (env : DarwinStartEnv) (probe : Nat → ProbeOutcome)
    (choice : StartupChoice) : List StartEvent × Except StartError Unit :=
  if env.orbLaunchOk = false then
    ([.launchOrbStack, .showOrbStackManual], .error .startOrbStack)
  else
    ([.launchOrbStack, .waitAndRetryStep],
      liftRetryResult (waitAndRetryDocker probe choice).2.2)

/-- `attemptColimaStart` (health.go lines 316-326): run `colima start`; on
failure show the Colima manual instructions and return an error, on
success proceed to `waitAndRetryDocker`. -/
def attemptColimaStart (env : DarwinStartEnv) (probe : Nat → ProbeOutcome)
    (choice : StartupChoice) : List StartEvent × Except StartError Unit :=
  if env.colimaLaunchOk = false then
    ([.launchColima, .showColimaManual], .error .startColima)
  else
    ([.launchColima, .waitAndRetryStep],
      liftRetryResult (waitAndRetryDocker probe choice).2.2)

/-- The darwin branch of `attemptContainerRuntimeStart` (health.go lines
341-373): look for `orbctl` first, then `colima`, then fall back to
launching Docker Desktop (`open -a Docker`); a failed desktop launch falls
through to `showStartupOptions`. -/
def attemptContainerRuntimeStartDarwin (env : DarwinStartEnv)
    (probe : Nat → ProbeOutcome) (choice : StartupChoice) :
    List StartEvent × Except StartError Unit :=
  if env.orbctlOnPath then
    let r := attemptOrbStackStart env probe choice
    (StartEvent.lookPathOrbctl :: r.1, r.2)
  else if env.colimaOnPath then
    let r := attemptColimaStart env probe choice
    (StartEvent.lookPathOrbctl :: StartEvent.lookPathColima :: r.1, r.2)
  else if env.desktopLaunchOk = false then
    ([.lookPathOrbctl, .lookPathColima, .launchDockerDesktop,
        .showStartupOptionsStep],
      .error (.recovery (showStartupOptions choice).2))
  else
    ([.lookPathOrbctl, .lookPathColima, .launchDockerDesktop,
        .waitAndRetryStep],
      liftRetryResult (waitAndRetryDocker probe choice).2.2)

/-- C8: on macOS, automatic start probes OrbStack (`orbctl`) first, then
Colima, then falls back to Docker Desktop; a failed launch shows that
runtime's manual instructions and returns an error, a successful launch
proceeds to wait-and-retry; later runtimes are never touched once an
earlier one is found. -/
theorem attemptContainerRuntimeStart_priority (env : DarwinStartEnv)
    (probe : Nat → ProbeOutcome) (choice : StartupChoice) :
    (env.orbctlOnPath = true → env.orbLaunchOk = false →
      attemptContainerRuntimeStartDarwin env probe choice =
        ([.lookPathOrbctl, .launchOrbStack, .showOrbStackManual],
          .error .startOrbStack)) ∧
    (env.orbctlOnPath = true → env.orbLaunchOk = true →
      attemptContainerRuntimeStartDarwin env probe choice =
        ([.lookPathOrbctl, .launchOrbStack, .waitAndRetryStep],
          liftRetryResult (waitAndRetryDocker probe choice).2.2)) ∧
    (env.orbctlOnPath = true →
      StartEvent.lookPathColima ∉ (attemptContainerRuntimeStartDarwin env probe choice).1 ∧
      StartEvent.launchColima ∉ (attemptContainerRuntimeStartDarwin env probe choice).1 ∧
      StartEvent.launchDockerDesktop ∉ (attemptContainerRuntimeStartDarwin env probe choice).1) ∧
    (env.orbctlOnPath = false → env.colimaOnPath = true → env.colimaLaunchOk = false →
      attemptContainerRuntimeStartDarwin env probe choice =
        ([.lookPathOrbctl, .lookPathColima, .launchColima, .showColimaManual],
          .error .startColima)) ∧
    (env.orbctlOnPath = false → env.colimaOnPath = true → env.colimaLaunchOk = true →
      attemptContainerRuntimeStartDarwin env probe choice =
        ([.lookPathOrbctl, .lookPathColima, .launchColima, .waitAndRetryStep],
          liftRetryResult (waitAndRetryDocker probe choice).2.2)) ∧
    (env.orbctlOnPath = false → env.colimaOnPath = true →
      StartEvent.launchDockerDesktop ∉ (attemptContainerRuntimeStartDarwin env probe choice).1) ∧
    (env.orbctlOnPath = false → env.colimaOnPath = false → env.desktopLaunchOk = false →
      attemptContainerRuntimeStartDarwin env probe choice =
        ([.lookPathOrbctl, .lookPathColima, .launchDockerDesktop,
            .showStartupOptionsStep],
          .error (.recovery (showStartupOptions choice).2))) ∧
    (env.orbctlOnPath = false → env.colimaOnPath = false → env.desktopLaunchOk = true →
      attemptContainerRuntimeStartDarwin env probe choice =
        ([.lookPathOrbctl, .lookPathColima, .launchDockerDesktop,
            .waitAndRetryStep],
          liftRetryResult (waitAndRetryDocker probe choice).2.2)) := by
  refine ⟨?_, ?_, ?_, ?_, ?_, ?_, ?_, ?_⟩ <;> intro h1
  · intro h2
    simp [attemptContainerRuntimeStartDarwin, attemptOrbStackStart, h1, h2]
  · intro h2
    simp [attemptContainerRuntimeStartDarwin, attemptOrbStackStart, h1, h2]
  · refine ⟨?_, ?_, ?_⟩ <;>
      cases h2 : env.orbLaunchOk <;>
        simp [attemptContainerRuntimeStartDarwin, attemptOrbStackStart, h1, h2]
  · intro h2 h3
    simp [attemptContainerRuntimeStartDarwin, attemptColimaStart, h1, h2, h3]
  · intro h2 h3
    simp [attemptContainerRuntimeStartDarwin, attemptColimaStart, h1, h2, h3]
  · intro h2
    cases h3 : env.colimaLaunchOk <;>
      simp [attemptContainerRuntimeStartDarwin, attemptColimaStart, h1, h2, h3]
  · intro h2 h3
    simp [attemptContainerRuntimeStartDarwin, h1, h2, h3]
  · intro h2 h3
    simp [attemptContainerRuntimeStartDarwin, h1, h2, h3]

/-- Witness for C8: OrbStack's CLI is on the path but the launch fails —
the flow shows OrbStack's manual instructions, errors, and never probes
Colima or Docker Desktop. -/
theorem attemptContainerRuntimeStart_priority_witness :
    attemptContainerRuntimeStartDarwin ⟨true, true, false, true, true⟩
        (fun _ => ProbeOutcome.pingOk) StartupChoice.manualCommands =
      ([.lookPathOrbctl, .launchOrbStack, .showOrbStackManual],
        .error .startOrbStack) ∧
    StartEvent.lookPathColima ∉
      (attemptContainerRuntimeStartDarwin ⟨true, true, false, true, true⟩
        (fun _ => ProbeOutcome.pingOk) StartupChoice.manualCommands).1 :=
  ⟨(attemptContainerRuntimeStart_priority ⟨true, true, false, true, true⟩
      (fun _ => ProbeOutcome.pingOk) StartupChoice.manualCommands).1 rfl rfl,
   ((attemptContainerRuntimeStart_priority ⟨true, true, false, true, true⟩
      (fun _ => ProbeOutcome.pingOk) StartupChoice.manualCommands).2.2.1 rfl).1⟩

/-! ### Registry error classifier (pkg/docker/registry.go)

Each of the five patterns of `DetectRegistryError` is a regular expression
of the shape `lit₀.*lit₁.*…litₙ` over literal segments (all dots in the
literals are escaped).  In RE2, `.` does not match a newline, so such a
pattern matches a string iff some newline-free stretch — hence some line —
contains the literal segments consecutively in order.  The two capture
patterns (`registry\.([a-zA-Z0-9.-]+)` and
`unable to get image \x27([^\x27]+)\x27`) are embedded directly with
leftmost-match semantics. -/

/-- Remainder of `hay` after the first (leftmost) occurrence of the
contiguous substring `needle`; `none` when `needle` does not occur. -/
def dropAfterFirst (needle : List Char) : List Char → Option (List Char)
  | [] => if needle.isEmpty then some [] else none
  | c :: rest =>
    if needle.isPrefixOf (c :: rest) then some ((c :: rest).drop needle.length)
    else dropAfterFirst needle rest

/-- Do the literal segments occur in `hay`, in order, each after the end of
the previous one?  (The match of `lit₀.*lit₁.*…` on a newline-free text.) -/
def seqMatchLine : List (List Char) → List Char → Bool
  | [], _ => true
  | n :: ns, hay =>
    match dropAfterFirst n hay with
    | some rest => seqMatchLine ns rest
    | none => false

/-- Split into lines at the newline character (code point 10), keeping
empty segments: the maximal newline-free stretches of the text. -/
def splitLinesAux : List Char → List Char → List (List Char)
  | [], acc => [acc.reverse]
  | c :: rest, acc =>
    if c.toNat == 10 then acc.reverse :: splitLinesAux rest []
    else splitLinesAux rest (c :: acc)

def splitLines (l : List Char) : List (List Char) :=
  splitLinesAux l []

/-- `pattern.MatchString(s)` for a `lit₀.*lit₁.*…` pattern: some line of
`s` contains the literal segments in order. -/
def patMatches (lits : List String) (s : String) : Bool :=
  (splitLines s.toList).any (fun line => seqMatchLine (lits.map String.toList) line)

/-- `strings.Contains(hay, needle)` -/
def strContains (hay needle : String) : Bool :=
  (dropAfterFirst needle.toList hay.toList).isSome

/-- The character class `[a-zA-Z0-9.-]` of the registry capture pattern. -/
def isRegistryHostChar (c : Char) : Bool :=
  (97 ≤ c.toNat && c.toNat ≤ 122) || (65 ≤ c.toNat && c.toNat ≤ 90) ||
    (48 ≤ c.toNat && c.toNat ≤ 57) || c.toNat == 46 || c.toNat == 45

/-- The literal head `registry\.` of the registry capture pattern. -/
def registryHostLit : List Char := "registry.".toList

/-- Leftmost match of `registry\.([a-zA-Z0-9.-]+)`: the first position
where `registry.` is followed by at least one class character yields the
greedy class-character run as the capture group. -/
def findRegistryCapture : List Char → Option (List Char)
  | [] => none
  | c :: rest =>
    if registryHostLit.isPrefixOf (c :: rest) then
      let run := ((c :: rest).drop registryHostLit.length).takeWhile
        isRegistryHostChar
      if run.isEmpty then findRegistryCapture rest else some run
    else findRegistryCapture rest

/-- The literal head of the image capture pattern (`\x27` is the ASCII
apostrophe). -/
def imageLit : List Char := "unable to get image \x27".toList

/-- Leftmost match of `unable to get image \x27([^\x27]+)\x27`: after the
literal head, a non-empty run of non-apostrophe characters must be closed
by an apostrophe (the `takeWhile` run is followed by some character, which
is then necessarily the closing apostrophe). -/
def findImageCapture : List Char → Option (List Char)
  | [] => none
  | c :: rest =>
    if imageLit.isPrefixOf (c :: rest) then
      let after := (c :: rest).drop imageLit.length
      let run := after.takeWhile (fun ch => ch.toNat != 39)
      if run.isEmpty then findImageCapture rest
      else
        match (after.drop run.length).head? with
        | some _ => some run
        | none => findImageCapture rest
    else findImageCapture rest

/-- `registryMatch[1]` of `DetectRegistryError` ("" when there is no
match, as in the source). -/
def extractRegistry (s : String) : String :=
  match findRegistryCapture s.toList with
  | some cap => String.mk cap
  | none => ""

/-- `imageMatch[1]` of `DetectRegistryError` ("" when there is no match). -/
def extractImage (s : String) : String :=
  match findImageCapture s.toList with
  | some cap => String.mk cap
  | none => ""

/-- `RegistryError` (registry.go lines 12-17). -/
structure RegistryError where
  Registry : String
  ErrorType : String
  Image : String
  Suggestions : List String
deriving DecidableEq, Repr

/-- One entry of the `patterns` map of `DetectRegistryError`: the key and
the literal segments of its `lit₀.*lit₁.*…` regular expression. -/
structure RegistryPattern where
  errorType : String
  lits : List String
deriving DecidableEq, Repr

/-- `"gitlab_auth": error from registry.*gitlab\.com.*HTTP Basic.*Access denied` -/
def gitlabAuthPattern : RegistryPattern :=
  ⟨"gitlab_auth", ["error from registry", "gitlab.com", "HTTP Basic", "Access denied"]⟩

/-- `"github_auth": error from registry.*ghcr\.io.*unauthorized` -/
def githubAuthPattern : RegistryPattern :=
  ⟨"github_auth", ["error from registry", "ghcr.io", "unauthorized"]⟩

/-- `"dockerhub_auth": pull access denied.*repository does not exist or may require.*docker login` -/
def dockerhubAuthPattern : RegistryPattern :=
  ⟨"dockerhub_auth",
    ["pull access denied", "repository does not exist or may require", "docker login"]⟩

/-- `"generic_auth": unauthorized.*authentication required` -/
def genericAuthPattern : RegistryPattern :=
  ⟨"generic_auth", ["unauthorized", "authentication required"]⟩

/-- `"registry_access": error from registry.*Access denied` -/
def registryAccessPattern : RegistryPattern :=
  ⟨"registry_access", ["error from registry", "Access denied"]⟩

/-- The entries of the `patterns` map, in source-text order.  Go does not
guarantee any iteration order over a map, so `DetectRegistryError` below
takes the order iterated as a parameter; a legitimate order is any
permutation of this list. -/
def registryPatterns : List RegistryPattern :=
  [gitlabAuthPattern, githubAuthPattern, dockerhubAuthPattern,
    genericAuthPattern, registryAccessPattern]

/-- `getRegistryURL` (registry.go lines 90-98). -/
def getRegistryURL (registry : String) : String :=
  if strContains registry "gitlab.com" then "registry.gitlab.com"
  else if strContains registry "github.com" || strContains registry "ghcr.io" then
    "ghcr.io"
  else registry

/-- The `default` branch of `getRegistrySuggestions`. -/
def defaultRegistrySuggestions : List String :=
  ["Run: docker login <registry-url>",
   "Use appropriate credentials for the registry",
   "Check if the image exists and you have permission to access it"]

/-- `getRegistrySuggestions` (registry.go lines 58-87); `\x27` is the
ASCII apostrophe of the source strings. -/
def getRegistrySuggestions (errorType registry : String) : List String :=
  if errorType = "gitlab_auth" then
    ["Create a GitLab Personal Access Token with \x27read_registry\x27 scope",
     "Run: docker login " ++ getRegistryURL registry,
     "Use your GitLab username and the Personal Access Token as password",
     "GitLab tokens: https://gitlab.com/-/profile/personal_access_tokens"]
  else if errorType = "github_auth" then
    ["Create a GitHub Personal Access Token with \x27read:packages\x27 scope",
     "Run: docker login ghcr.io",
     "Use your GitHub username and the Personal Access Token as password",
     "GitHub tokens: https://github.com/settings/tokens"]
  else if errorType = "dockerhub_auth" then
    ["Run: docker login",
     "Use your Docker Hub username and password",
     "Or create an Access Token in Docker Hub settings"]
  else defaultRegistrySuggestions

/-- `DetectRegistryError` (registry.go lines 20-55).  The source iterates
the `patterns` map and returns on the first entry whose pattern matches;
`order` is the iteration order the Go runtime happened to produce. -/
def DetectRegistryError (order : List RegistryPattern) (errorOutput : String) :
    Option RegistryError :=
  match order.find? (fun p => patMatches p.lits errorOutput) with
  | some p =>
    some ⟨extractRegistry errorOutput, p.errorType, extractImage errorOutput,
      getRegistrySuggestions p.errorType (extractRegistry errorOutput)⟩
  | none => none

/-! ### Lemmas about the classifier -/

/-- Soundness of `dropAfterFirst`: a hit decomposes the haystack. -/
theorem dropAfterFirst_some (needle : List Char) :
    ∀ hay rest, dropAfterFirst needle hay = some rest →
      ∃ u, hay = u ++ needle ++ rest := by
  intro hay
  induction hay with
  | nil =>
    intro rest h
    by_cases hn : needle.isEmpty
    · rw [List.isEmpty_iff] at hn
      subst hn
      simp [dropAfterFirst] at h
      subst h
      exact ⟨[], rfl⟩
    · simp [dropAfterFirst, hn] at h
  | cons c t ih =>
    intro rest h
    by_cases hp : needle.isPrefixOf (c :: t) = true
    · rw [dropAfterFirst, if_pos hp] at h
      have hpre : needle <+: c :: t := List.isPrefixOf_iff_prefix.mp hp
      obtain ⟨v, hv⟩ := hpre
      refine ⟨[], ?_⟩
      have hdrop : (c :: t).drop needle.length = v := by
        rw [← hv, List.drop_left]
      rw [hdrop] at h
      cases h
      simpa using hv.symm
    · rw [dropAfterFirst, if_neg hp] at h
      obtain ⟨u, hu⟩ := ih rest h
      exact ⟨c :: u, by simp [hu]⟩

/-- An occurrence of `registry.` followed by a host character guarantees a
non-empty registry capture (the leftmost hit may be an earlier one, but
some non-empty capture is always produced). -/
theorem findRegistryCapture_of_occurrence :
    ∀ (u : List Char) (d : Char) (rest' : List Char),
      isRegistryHostChar d = true →
      ∃ cap, findRegistryCapture (u ++ registryHostLit ++ d :: rest') = some cap ∧
        cap ≠ [] := by
  intro u
  induction u with
  | nil =>
    intro d rest' hd
    have hpre : registryHostLit.isPrefixOf (registryHostLit ++ d :: rest') = true :=
      List.isPrefixOf_iff_prefix.mpr (List.prefix_append _ _)
    have hdrop : (registryHostLit ++ d :: rest').drop registryHostLit.length =
        d :: rest' := List.drop_left _ _
    have hstep : findRegistryCapture (registryHostLit ++ d :: rest') =
        (if ((registryHostLit ++ d :: rest').drop registryHostLit.length).takeWhile
            isRegistryHostChar = [] then
          findRegistryCapture ("egistry.".toList ++ d :: rest')
        else some (((registryHostLit ++ d :: rest').drop
            registryHostLit.length).takeWhile isRegistryHostChar)) := by
      rw [show (registryHostLit ++ d :: rest' : List Char) =
        'r' :: ("egistry.".toList ++ d :: rest') from rfl]
      rw [findRegistryCapture]
      rw [show ('r' :: ("egistry.".toList ++ d :: rest') : List Char) =
        registryHostLit ++ d :: rest' from rfl]
      rw [if_pos hpre]
      simp only [List.isEmpty_iff]
    rw [hdrop, List.takeWhile_cons_of_pos hd] at hstep
    refine ⟨d :: (rest'.takeWhile isRegistryHostChar), ?_, by simp⟩
    simp only [List.nil_append]
    rw [hstep, if_neg (by simp)]
  | cons c u' ih =>
    intro d rest' hd
    obtain ⟨cap, hcap, hne⟩ := ih d rest' hd
    by_cases hp : registryHostLit.isPrefixOf
        (c :: (u' ++ registryHostLit ++ d :: rest')) = true
    · by_cases hrun : ((c :: (u' ++ registryHostLit ++ d :: rest')).drop
          registryHostLit.length).takeWhile isRegistryHostChar = []
      · refine ⟨cap, ?_, hne⟩
        have : (c :: u' ++ registryHostLit ++ d :: rest' : List Char) =
            c :: (u' ++ registryHostLit ++ d :: rest') := by simp
        rw [this, findRegistryCapture, if_pos hp]
        simp only [List.isEmpty_iff, hrun, if_pos]
        exact hcap
      · refine ⟨((c :: (u' ++ registryHostLit ++ d :: rest')).drop
          registryHostLit.length).takeWhile isRegistryHostChar, ?_, hrun⟩
        have : (c :: u' ++ registryHostLit ++ d :: rest' : List Char) =
            c :: (u' ++ registryHostLit ++ d :: rest') := by simp
        rw [this, findRegistryCapture, if_pos hp]
        simp only [List.isEmpty_iff, hrun, if_false]
    · refine ⟨cap, ?_, hne⟩
      have : (c :: u' ++ registryHostLit ++ d :: rest' : List Char) =
          c :: (u' ++ registryHostLit ++ d :: rest') := by simp
      rw [this, findRegistryCapture, if_neg hp]
      exact hcap

/-- A string containing `registry.gitlab.com` has a non-empty registry
capture. -/
theorem findRegistryCapture_of_contains (s : String)
    (h : strContains s "registry.gitlab.com" = true) :
    ∃ cap, findRegistryCapture s.toList = some cap ∧ cap ≠ [] := by
  unfold strContains at h
  rw [Option.isSome_iff_exists] at h
  obtain ⟨rest, hrest⟩ := h
  obtain ⟨u, hu⟩ := dropAfterFirst_some _ _ _ hrest
  have hlit : ("registry.gitlab.com".toList : List Char) =
      registryHostLit ++ 'g' :: "itlab.com".toList := rfl
  have hg : isRegistryHostChar 'g' = true := rfl
  have hs : s.toList = (u ++ registryHostLit ++ 'g' :: ("itlab.com".toList ++ rest)) := by
    rw [hu, hlit]
    simp
  rw [hs]
  have := findRegistryCapture_of_occurrence u 'g' ("itlab.com".toList ++ rest) hg
  simpa using this

/-- `extractRegistry` is non-empty whenever the capture is. -/
theorem extractRegistry_ne_empty (s : String) (cap : List Char)
    (hcap : findRegistryCapture s.toList = some cap) (hne : cap ≠ []) :
    extractRegistry s ≠ "" := by
  unfold extractRegistry
  rw [hcap]
  intro h
  exact hne (congrArg String.data h)

/-- `find?` returns the head of the filtered list. -/
theorem find?_eq_head?_filter {α : Type} (p : α → Bool) :
    ∀ l : List α, l.find? p = (l.filter p).head? := by
  intro l
  induction l with
  | nil => rfl
  | cons c t ih =>
    cases hp : p c
    · rw [List.find?_cons_of_neg _ (by simp [hp]), List.filter_cons_of_neg (by simp [hp]), ih]
    · rw [List.find?_cons_of_pos _ hp, List.filter_cons_of_pos hp]
      rfl

/-- C3 counterexample: `DetectRegistryError` iterates a Go map, whose
iteration order is unspecified; on an error text matched by both the
gitlab and the registry-access pattern, two legitimate iteration orders
(both permutations of the pattern set) produce structurally different
results, so the function's output is not determined by its input alone. -/
theorem detect_order_dependent_counterexample :
    ([registryAccessPattern, gitlabAuthPattern, githubAuthPattern,
        dockerhubAuthPattern, genericAuthPattern] : List RegistryPattern).Perm
      registryPatterns ∧
    DetectRegistryError registryPatterns
        "error from registry.gitlab.com: HTTP Basic: Access denied" ≠
      DetectRegistryError
        [registryAccessPattern, gitlabAuthPattern, githubAuthPattern,
          dockerhubAuthPattern, genericAuthPattern]
        "error from registry.gitlab.com: HTTP Basic: Access denied" := by
  constructor
  · decide
  · decide

/-- C3 amended: `classify` is a pure function of the input text and the
map iteration order, and whenever at most one of the five patterns matches
the input, the result is independent of the iteration order — the
non-determinism is confined to inputs matched by two or more patterns. -/
theorem detect_deterministic_of_unique_match (o1 o2 : List RegistryPattern)
    (s : String) (h1 : o1.Perm registryPatterns) (h2 : o2.Perm registryPatterns)
    (huniq : registryPatterns.countP (fun p => patMatches p.lits s) ≤ 1) :
    DetectRegistryError o1 s = DetectRegistryError o2 s := by
  have hf : ∀ o : List RegistryPattern, o.Perm registryPatterns →
      o.filter (fun p => patMatches p.lits s) =
        registryPatterns.filter (fun p => patMatches p.lits s) := by
    intro o ho
    have hperm := ho.filter (fun p => patMatches p.lits s)
    have hlen : (registryPatterns.filter (fun p => patMatches p.lits s)).length ≤ 1 := by
      rw [← List.countP_eq_length_filter]
      exact huniq
    cases hl : registryPatterns.filter (fun p => patMatches p.lits s) with
    | nil =>
      rw [hl] at hperm
      exact hperm.eq_nil
    | cons x xs =>
      rw [hl] at hperm hlen
      have hxs : xs = [] := by
        simp only [List.length_cons] at hlen
        exact List.eq_nil_of_length_eq_zero (by omega)
      subst hxs
      exact List.perm_singleton.mp hperm
  unfold DetectRegistryError
  rw [find?_eq_head?_filter, find?_eq_head?_filter, hf o1 h1, hf o2 h2]

/-- Witness for the amended C3: an input matched by exactly one pattern
(the generic-auth one) classifies identically under two different
iteration orders. -/
theorem detect_deterministic_of_unique_match_witness :
    DetectRegistryError registryPatterns
        "unauthorized: authentication required" =
      DetectRegistryError
        [registryAccessPattern, genericAuthPattern, dockerhubAuthPattern,
          githubAuthPattern, gitlabAuthPattern]
        "unauthorized: authentication required" :=
  detect_deterministic_of_unique_match _ _ _ (List.Perm.refl _)
    (by decide) (by decide)

/-- C4 counterexample: an error text that contains both
`registry.gitlab.com` and the HTTP Basic access-denied phrase but lacks the
`error from registry` prefix matches none of the five patterns, so
`DetectRegistryError` returns `none` instead of a gitlab-auth failure. -/
theorem detect_gitlab_phrase_counterexample :
    strContains "registry.gitlab.com HTTP Basic: Access denied"
      "registry.gitlab.com" = true ∧
    strContains "registry.gitlab.com HTTP Basic: Access denied"
      "HTTP Basic: Access denied" = true ∧
    (∀ p ∈ registryPatterns,
      patMatches p.lits "registry.gitlab.com HTTP Basic: Access denied" = false) ∧
    DetectRegistryError registryPatterns
      "registry.gitlab.com HTTP Basic: Access denied" = none := by
  refine ⟨by decide, by decide, by decide, by decide⟩

/-- C4 amended: for every input actually matched by the gitlab pattern
(`error from registry`, then `gitlab.com`, then `HTTP Basic`, then
`Access denied`, in order within one line) that contains
`registry.gitlab.com`, and for every map iteration order that evaluates
the gitlab pattern first, `DetectRegistryError` yields the gitlab-auth
category with a non-empty registry host, and the first remediation entry
is the one about creating a personal access token with `read_registry`
scope. -/
theorem detect_gitlab_auth_first_match (s : String) (rest : List RegistryPattern)
    (hm : patMatches gitlabAuthPattern.lits s = true)
    (hperm : (gitlabAuthPattern :: rest).Perm registryPatterns)
    (hhost : strContains s "registry.gitlab.com" = true) :
    ∃ r, DetectRegistryError (gitlabAuthPattern :: rest) s = some r ∧
      r.ErrorType = "gitlab_auth" ∧
      r.Registry ≠ "" ∧
      r.Suggestions.head? = some
        "Create a GitLab Personal Access Token with \x27read_registry\x27 scope" := by
  obtain ⟨cap, hcap, hne⟩ := findRegistryCapture_of_contains s hhost
  refine ⟨⟨extractRegistry s, "gitlab_auth", extractImage s,
    getRegistrySuggestions "gitlab_auth" (extractRegistry s)⟩, ?_, rfl, ?_, ?_⟩
  · unfold DetectRegistryError
    have hfind : List.find? (fun p : RegistryPattern => patMatches p.lits s)
        (gitlabAuthPattern :: rest) = some gitlabAuthPattern :=
      List.find?_cons_of_pos _ hm
    rw [hfind]
    rfl
  · exact extractRegistry_ne_empty s cap hcap hne
  · simp [getRegistrySuggestions]

/-- Witness for the amended C4 at a full gitlab-style error line and the
source-order iteration. -/
theorem detect_gitlab_auth_first_match_witness :
    ∃ r, DetectRegistryError
        (gitlabAuthPattern :: [githubAuthPattern, dockerhubAuthPattern,
          genericAuthPattern, registryAccessPattern])
        "error from registry.gitlab.com: HTTP Basic: Access denied" = some r ∧
      r.ErrorType = "gitlab_auth" ∧
      r.Registry ≠ "" ∧
      r.Suggestions.head? = some
        "Create a GitLab Personal Access Token with \x27read_registry\x27 scope" :=
  detect_gitlab_auth_first_match
    "error from registry.gitlab.com: HTTP Basic: Access denied"
    [githubAuthPattern, dockerhubAuthPattern, genericAuthPattern,
      registryAccessPattern]
    (by decide) (by decide) (by decide)

/-- C7: when none of the classifier's five patterns matches the input,
`DetectRegistryError` returns `none` — no registry failure value, hence no
registry-specific remediation — for every map iteration order. -/
theorem detect_none_of_no_match (order : List RegistryPattern) (s : String)
    (hperm : order.Perm registryPatterns)
    (h : ∀ p ∈ registryPatterns, patMatches p.lits s = false) :
    DetectRegistryError order s = none := by
  unfold DetectRegistryError
  have hnone : order.find? (fun p => patMatches p.lits s) = none := by
    rw [List.find?_eq_none]
    intro x hx
    simp [h x (hperm.mem_iff.mp hx)]
  rw [hnone]

/-- Witness for C7 at an unrecognized error text. -/
theorem detect_none_of_no_match_witness :
    DetectRegistryError registryPatterns "compose file not found" = none :=
  detect_none_of_no_match registryPatterns "compose file not found"
    (List.Perm.refl _) (by decide)

/-- C10: whenever `DetectRegistryError` returns a value, its remediation
list has at least three entries, and the two categories without a
dedicated branch in `getRegistrySuggestions` — `registry_access` and
`generic_auth` — receive the generic default remediation list. -/
theorem detect_suggestions_nonempty (order : List RegistryPattern) (s : String)
    (r : RegistryError) (hperm : order.Perm registryPatterns)
    (h : DetectRegistryError order s = some r) :
    3 ≤ r.Suggestions.length ∧
    (r.ErrorType = "registry_access" → r.Suggestions = defaultRegistrySuggestions) ∧
    (r.ErrorType = "generic_auth" → r.Suggestions = defaultRegistrySuggestions) := by
  unfold DetectRegistryError at h
  cases hf : order.find? (fun p => patMatches p.lits s) with
  | none => rw [hf] at h; exact absurd h (by simp)
  | some p =>
    rw [hf] at h
    have hpmem : p ∈ registryPatterns :=
      hperm.mem_iff.mp (List.mem_of_find?_eq_some hf)
    have hr : r = ⟨extractRegistry s, p.errorType, extractImage s,
        getRegistrySuggestions p.errorType (extractRegistry s)⟩ :=
      (Option.some.inj h).symm
    subst hr
    have hcases : p = gitlabAuthPattern ∨ p = githubAuthPattern ∨
        p = dockerhubAuthPattern ∨ p = genericAuthPattern ∨
        p = registryAccessPattern := by
      simpa [registryPatterns] using hpmem
    rcases hcases with rfl | rfl | rfl | rfl | rfl <;>
      simp [getRegistrySuggestions, gitlabAuthPattern, githubAuthPattern,
        dockerhubAuthPattern, genericAuthPattern, registryAccessPattern,
        defaultRegistrySuggestions]

/-- Witness for C10 at a gitlab-style error line classified with the
source-order iteration. -/
theorem detect_suggestions_nonempty_witness :
    3 ≤ (RegistryError.mk "gitlab.com" "gitlab_auth" ""
      (getRegistrySuggestions "gitlab_auth" "gitlab.com")).Suggestions.length ∧
    ((RegistryError.mk "gitlab.com" "gitlab_auth" ""
      (getRegistrySuggestions "gitlab_auth" "gitlab.com")).ErrorType =
        "registry_access" →
      (RegistryError.mk "gitlab.com" "gitlab_auth" ""
        (getRegistrySuggestions "gitlab_auth" "gitlab.com")).Suggestions =
        defaultRegistrySuggestions) ∧
    ((RegistryError.mk "gitlab.com" "gitlab_auth" ""
      (getRegistrySuggestions "gitlab_auth" "gitlab.com")).ErrorType =
        "generic_auth" →
      (RegistryError.mk "gitlab.com" "gitlab_auth" ""
        (getRegistrySuggestions "gitlab_auth" "gitlab.com")).Suggestions =
        defaultRegistrySuggestions) :=
  detect_suggestions_nonempty registryPatterns
    "error from registry.gitlab.com: HTTP Basic: Access denied"
    (RegistryError.mk "gitlab.com" "gitlab_auth" ""
      (getRegistrySuggestions "gitlab_auth" "gitlab.com"))
    (List.Perm.refl _) (by decide)

end Dockyard
